import Mathlib

/-!
Verification of the text-recognition worker's core logic
(`src/region_of_interest.rs`, `src/main.rs`, `src/message.rs`)
via a shallow embedding in Lean 4.

Machine integers are modelled as `Nat` with explicit wrapping where the
Rust code can overflow: `u32` subtraction wraps modulo `2^32` in release
builds, and the `i64 → u64` cast reinterprets modulo `2^64`.
-/

namespace TextRecognition

/-- Wrapping `u32` subtraction: for `a, b < 2^32` this is `(a - b) mod 2^32`,
the value Rust's `a - b` on `u32` produces in release builds (debug builds
panic on underflow instead). -/
def wsub (a b : Nat) : Nat :=
  (a + (4294967296 - b % 4294967296)) % 4294967296

/-- `struct RegionOfInterest` from `src/region_of_interest.rs`: six optional
unsigned fields. -/
structure RegionOfInterest where
  top : Option Nat
  left : Option Nat
  right : Option Nat
  bottom : Option Nat
  width : Option Nat
  height : Option Nat
  deriving DecidableEq, Repr

/-- `struct Coordinates` from `src/region_of_interest.rs`. -/
structure Coordinates where
  top : Nat
  left : Nat
  width : Nat
  height : Nat
  deriving DecidableEq, Repr

/-- Rendering of `Option<u32>` as Rust's `Debug` does (`None` / `Some(n)`),
used in the error message of `get_coordinates`. -/
def optionDebug : Option Nat → String
  | none => "None"
  | some n => "Some(" ++ toString n ++ ")"

/-- Rust `Debug` rendering of a `RegionOfInterest`, as interpolated into the
error message by `format!("... {:?}", self)`. It names exactly which of the
six fields are present and their values. -/
def regionDebug (r : RegionOfInterest) : String :=
  "RegionOfInterest \x7b top: " ++ optionDebug r.top ++
  ", left: " ++ optionDebug r.left ++
  ", right: " ++ optionDebug r.right ++
  ", bottom: " ++ optionDebug r.bottom ++
  ", width: " ++ optionDebug r.width ++
  ", height: " ++ optionDebug r.height ++ " \x7d"

/-- The error string built by the fallback arm of `get_coordinates`. -/
def regionErrorMessage (r : RegionOfInterest) : String :=
  "Cannot compute coordinates from such a region of interest: " ++ regionDebug r

/-- `RegionOfInterest::get_coordinates` from `src/region_of_interest.rs`,
lines 29-127: seven match arms for the seven accepted field combinations,
with a catch-all error arm. Subtractions are the code's `u32` subtractions,
modelled as wrapping (`wsub`). -/
def RegionOfInterest.get_coordinates : RegionOfInterest → Except String Coordinates
  | ⟨some top, some left, some right, some bottom, none, none⟩ =>
      .ok ⟨top, left, wsub right left, wsub bottom top⟩
  | ⟨some top, some left, none, none, some width, some height⟩ =>
      .ok ⟨top, left, width, height⟩
  | ⟨some top, some left, none, some bottom, some width, none⟩ =>
      .ok ⟨top, left, width, wsub bottom top⟩
  | ⟨some top, some left, some right, none, none, some height⟩ =>
      .ok ⟨top, left, wsub right left, height⟩
  | ⟨none, some left, none, some bottom, some width, some height⟩ =>
      .ok ⟨wsub bottom height, left, width, height⟩
  | ⟨some top, none, some right, none, some width, some height⟩ =>
      .ok ⟨top, wsub right width, width, height⟩
  | ⟨none, none, some right, some bottom, some width, some height⟩ =>
      .ok ⟨wsub bottom height, wsub right width, width, height⟩
  | r => .error (regionErrorMessage r)

/-- The presence pattern of a descriptor: which of
(top, left, right, bottom, width, height) are specified. -/
def presentFields (r : RegionOfInterest) : List Bool :=
  [r.top.isSome, r.left.isSome, r.right.isSome, r.bottom.isSome,
   r.width.isSome, r.height.isSome]

/-- The seven valid 4-of-6 presence patterns, in the order of the spec's
list (top,left,right,bottom / top,left,width,height / top,left,bottom,width /
top,left,right,height / left,bottom,width,height / top,right,width,height /
right,bottom,width,height). -/
def validCombos : List (List Bool) :=
  [[true, true, true, true, false, false],
   [true, true, false, false, true, true],
   [true, true, false, true, true, false],
   [true, true, true, false, false, true],
   [false, true, false, true, true, true],
   [true, false, true, false, true, true],
   [false, false, true, true, true, true]]

end TextRecognition

namespace TextRecognition

lemma wsub_eq_sub (a b : Nat) (hb : b ≤ a) (ha : a < 4294967296) :
    wsub a b = a - b := by
  have hb' : b < 4294967296 := lt_of_le_of_lt hb ha
  unfold wsub
  rw [Nat.mod_eq_of_lt hb']
  have h1 : a + (4294967296 - b) = (a - b) + 4294967296 := by omega
  rw [h1, Nat.add_mod_right, Nat.mod_eq_of_lt (by omega)]

/-- C1. `get_coordinates` succeeds exactly when the presence pattern of the
six fields is one of the seven valid 4-of-6 combinations, and on each of the
seven combinations it returns the coordinates given by the listed formulas
(`width = right - left`, `height = bottom - top`, `top = bottom - height`,
`left = right - width`, as `u32` subtractions); on every other combination it
fails with the error message naming the offending field set. -/
theorem get_coordinates_characterization (r : RegionOfInterest) :
    ((∃ c, r.get_coordinates = .ok c) ↔ presentFields r ∈ validCombos) ∧
    (∀ t l ri b, r = ⟨some t, some l, some ri, some b, none, none⟩ →
      r.get_coordinates = .ok ⟨t, l, wsub ri l, wsub b t⟩) ∧
    (∀ t l w h, r = ⟨some t, some l, none, none, some w, some h⟩ →
      r.get_coordinates = .ok ⟨t, l, w, h⟩) ∧
    (∀ t l b w, r = ⟨some t, some l, none, some b, some w, none⟩ →
      r.get_coordinates = .ok ⟨t, l, w, wsub b t⟩) ∧
    (∀ t l ri h, r = ⟨some t, some l, some ri, none, none, some h⟩ →
      r.get_coordinates = .ok ⟨t, l, wsub ri l, h⟩) ∧
    (∀ l b w h, r = ⟨none, some l, none, some b, some w, some h⟩ →
      r.get_coordinates = .ok ⟨wsub b h, l, w, h⟩) ∧
    (∀ t ri w h, r = ⟨some t, none, some ri, none, some w, some h⟩ →
      r.get_coordinates = .ok ⟨t, wsub ri w, w, h⟩) ∧
    (∀ ri b w h, r = ⟨none, none, some ri, some b, some w, some h⟩ →
      r.get_coordinates = .ok ⟨wsub b h, wsub ri w, w, h⟩) ∧
    (presentFields r ∉ validCombos →
      r.get_coordinates = .error (regionErrorMessage r)) := by
  obtain ⟨t, l, ri, b, w, h⟩ := r
  cases t <;> cases l <;> cases ri <;> cases b <;> cases w <;> cases h <;>
    simp [RegionOfInterest.get_coordinates, presentFields, validCombos,
      RegionOfInterest.mk.injEq] <;>
    (intros; subst_vars; simp)

/-- C1 witness: the seven-combination characterization applied at the
concrete descriptor of the repository's first unit test
(`top = 0, left = 0, right = 200, bottom = 100`). -/
theorem get_coordinates_characterization_witness :
    (⟨some 0, some 0, some 200, some 100, none, none⟩ :
        RegionOfInterest).get_coordinates = .ok ⟨0, 0, wsub 200 0, wsub 100 0⟩ :=
  ((get_coordinates_characterization
      ⟨some 0, some 0, some 200, some 100, none, none⟩).2.1) 0 0 200 100 rfl

/-- C2. The code performs an unchecked `u32` subtraction: at a descriptor
with `right < left` (here `left = 100, right = 50`), `get_coordinates`
returns `Ok` with the wrapped width `2^32 - 50 = 4294967246` (release
builds; debug builds panic), instead of the "negative/invalid extent" error
the specification requires. -/
theorem get_coordinates_underflow_wraps :
    (⟨some 0, some 100, some 50, some 100, none, none⟩ :
        RegionOfInterest).get_coordinates = .ok ⟨0, 100, 4294967246, 100⟩ := by
  rfl

/-- Rust's `%` on unsigned integers: `none` models the
"remainder with a divisor of zero" panic. -/
def rustRem (a b : Nat) : Option Nat :=
  if b = 0 then none else some (a % b)

/-- The keep decision of `process_frame` (`src/main.rs`, lines 122-127):
with no `sample_rate` every frame is kept; with `Some(r)` the frame is kept
when `frame_count % r == 0`, and `r = 0` panics (`none`). -/
def sampleKeep (sampleRate : Option Nat) (frameCount : Nat) : Option Bool :=
  match sampleRate with
  | none => some true
  | some r => (rustRem frameCount r).map (fun m => m == 0)

/-- One `process_frame` call as seen by the sampler: the decision for the
current counter value, and the incremented counter
(`fetch_add(1, Ordering::Relaxed)` happens on every call). -/
def processFrameCall (sampleRate : Option Nat) (frameCount : Nat) :
    Option Bool × Nat :=
  (sampleKeep sampleRate frameCount, frameCount + 1)

/-- Sequence numbers of the frames kept by the sampler over `n` consecutive
`process_frame` calls starting from counter value `c` (empty from the point
a division-by-zero panic occurs). -/
def keptFrames (sampleRate : Option Nat) : Nat → Nat → List Nat
  | 0, _ => []
  | n + 1, c =>
    match sampleKeep sampleRate c with
    | none => []
    | some true => c :: keptFrames sampleRate n (c + 1)
    | some false => keptFrames sampleRate n (c + 1)

/-- `message.rs` line 48-50: `job.get_parameter::<i64>(SAMPLE_RATE_PARAMETER)
.unwrap_or(1)` — the batch path's sample rate before the `as usize` cast. -/
def messageSampleRate (p : Option Int) : Int :=
  p.getD 1

/-- The `as usize` cast applied to the batch path's `i64` sample rate:
reinterpretation modulo `2^64`. -/
def i64ToUsize (i : Int) : Nat :=
  (i % 18446744073709551616).toNat

/-- C3. In the streamed path an unspecified `sample_rate` keeps every frame,
and in the batch path an unspecified `sample_rate` defaults to `1`; but no
validation rejects a zero `sample_rate`: at `sample_rate = Some(0)` the very
first `process_frame` call evaluates `0 % 0`, a division-by-zero panic,
rather than failing at job-parameter-validation time. -/
theorem sampleRate_default_and_zero_divides :
    (∀ n, sampleKeep none n = some true) ∧
    i64ToUsize (messageSampleRate none) = 1 ∧
    sampleKeep (some 0) 0 = none := by
  refine ⟨fun n => rfl, rfl, rfl⟩

/-- C4. The sampler's counter increments by exactly one per call regardless
of the decision; for a positive rate `r` the frame with sequence number `n`
is kept exactly when `n % r = 0`; over ten frames starting at counter `0`,
rate `3` keeps exactly `{0, 3, 6, 9}` and rate `1` keeps all ten. -/
theorem sampler_counter_and_keep_decision :
    (∀ sampleRate frameCount,
      (processFrameCall sampleRate frameCount).2 = frameCount + 1) ∧
    (∀ r n, 0 < r →
      sampleKeep (some r) n = some (decide (n % r = 0))) ∧
    keptFrames (some 3) 10 0 = [0, 3, 6, 9] ∧
    keptFrames (some 1) 10 0 = [0, 1, 2, 3, 4, 5, 6, 7, 8, 9] := by
  refine ⟨fun _ _ => rfl, fun r n hr => ?_, by decide, by decide⟩
  simp only [sampleKeep, rustRem, Nat.pos_iff_ne_zero.mp hr, if_false,
    Option.map_some]
  by_cases h : n % r = 0 <;> simp [h]

/-- C4 witness: the sampler theorem applied at rate `3`, counter `7`. -/
theorem sampler_counter_and_keep_decision_witness :
    sampleKeep (some 3) 7 = some (decide (7 % 3 = 0)) :=
  sampler_counter_and_keep_decision.2.1 3 7 (by decide)

/-- Buffer length computed by `process_frame` (`src/main.rs` line 139) and
`apply_ocr` (`src/message.rs` line 176): `linesize * height`. -/
def bufferSize (linesize height : Nat) : Nat :=
  linesize * height

/-- Bits per pixel of the packed RGB pixel format `rgb24`, as reported by
the ffmpeg pixel-format descriptor (`av_get_bits_per_pixel` on
`AV_PIX_FMT_RGB24`): 3 components of 8 bits. -/
def rgb24BitsPerPixel : Nat := 24

/-- `bytes_per_pixel` as computed in `src/main.rs` line 133 and
`src/message.rs` line 179: bits per pixel divided by 8. -/
def bytesPerPixel (bits : Nat) : Nat :=
  bits / 8

/-- C5. The buffer adapter computes `length = row_stride * height` and
`bytes_per_pixel = bits_per_pixel / 8`; for `row_stride = 192` and
`height = 100` the length is `19200`, and for the packed RGB target format
`bytes_per_pixel = 3`. -/
theorem buffer_geometry :
    (∀ linesize height, bufferSize linesize height = linesize * height) ∧
    (∀ bits, bytesPerPixel bits = bits / 8) ∧
    bufferSize 192 100 = 19200 ∧
    bytesPerPixel rgb24BitsPerPixel = 3 :=
  ⟨fun _ _ => rfl, fun _ => rfl, rfl, rfl⟩

/-- `Scaling` from the worker SDK as used in `src/main.rs` line 90:
optional target width and height. -/
structure Scaling where
  width : Option Nat
  height : Option Nat
  deriving DecidableEq, Repr

/-- `VideoFilter` as used in `src/main.rs` lines 95-104: crop, resize, or
pixel-format conversion. -/
inductive VideoFilter where
  | crop (region : RegionOfInterest)
  | resize (scaling : Scaling)
  | format (pixel_formats : String)
  deriving DecidableEq, Repr

/-- The scaling option computed in `src/main.rs` lines 88-91:
`None` only when both width and height are absent. -/
def scalingOf (width height : Option Nat) : Option Scaling :=
  match width, height with
  | none, none => none
  | w, h => some ⟨w, h⟩

/-- The `video_filters` vector built by `init_process` (`src/main.rs` lines
93-104): an optional crop, then an optional resize, then the mandatory
`format` filter with pixel format `rgb24`. -/
def buildVideoFilters (roi : Option RegionOfInterest) (width height : Option Nat) :
    List VideoFilter :=
  (match roi with
   | some region => [VideoFilter.crop region]
   | none => []) ++
  (match scalingOf width height with
   | some s => [VideoFilter.resize s]
   | none => []) ++
  [VideoFilter.format "rgb24"]

/-- Media type of a container stream, as compared by `init_process` against
`AVMediaType::AVMEDIA_TYPE_VIDEO`. -/
inductive MediaType where
  | video
  | audio
  | subtitle
  | data
  deriving DecidableEq, Repr

/-- `StreamDescriptor::new_video` as built in `src/main.rs` line 106. -/
structure StreamDescriptor where
  index : Nat
  filters : List VideoFilter
  deriving DecidableEq, Repr

/-- The stream scan of `init_process` (`src/main.rs` lines 86-110): the
index of the first video stream, if any. -/
def firstVideoIndex : List MediaType → Nat → Option Nat
  | [], _ => none
  | s :: rest, i =>
    if s = MediaType.video then some i else firstVideoIndex rest (i + 1)

/-- `init_process` (`src/main.rs` lines 73-114): returns a descriptor for
the first video stream carrying the built filter chain, or fails with
"Missing video stream in the source". -/
def initProcess (streams : List MediaType) (roi : Option RegionOfInterest)
    (width height : Option Nat) : Except String (List StreamDescriptor) :=
  match firstVideoIndex streams 0 with
  | some i => .ok [⟨i, buildVideoFilters roi width height⟩]
  | none => .error "Missing video stream in the source"

/-- C6. The filter chain always ends with the `rgb24` format-conversion
stage; it starts with a crop stage holding the requested region exactly
when a region of interest is present; and a resize stage sits between the
crop (or the chain's start) and the format conversion exactly when a target
width or height is present. -/
theorem filter_chain_shape (roi : Option RegionOfInterest) (w h : Option Nat) :
    ((buildVideoFilters roi w h).getLast? = some (VideoFilter.format "rgb24")) ∧
    (∀ region, roi = some region →
      (buildVideoFilters roi w h).head? = some (VideoFilter.crop region)) ∧
    (roi = none → ∀ region, VideoFilter.crop region ∉ buildVideoFilters roi w h) ∧
    ((w = none ∧ h = none) →
      ∀ s, VideoFilter.resize s ∉ buildVideoFilters roi w h) ∧
    (¬(w = none ∧ h = none) →
      buildVideoFilters roi w h =
        (match roi with
         | some region => [VideoFilter.crop region]
         | none => []) ++
        [VideoFilter.resize ⟨w, h⟩, VideoFilter.format "rgb24"]) := by
  cases roi <;> cases w <;> cases h <;>
    simp [buildVideoFilters, scalingOf]

/-- C6 witness: the chain-shape theorem applied with a region of interest
present, a target width of `640`, and no target height. -/
theorem filter_chain_shape_witness :
    buildVideoFilters (some ⟨some 0, some 0, none, none, some 8, some 8⟩)
        (some 640) none =
      [VideoFilter.crop ⟨some 0, some 0, none, none, some 8, some 8⟩,
       VideoFilter.resize ⟨some 640, none⟩, VideoFilter.format "rgb24"] :=
  (filter_chain_shape (some ⟨some 0, some 0, none, none, some 8, some 8⟩)
      (some 640) none).2.2.2.2 (by simp)

/-- The `pts as u64` cast of `src/main.rs` line 164: the signed 64-bit
presentation timestamp reinterpreted as an unsigned 64-bit integer, i.e.
taken modulo `2^64`. -/
def ptsToU64 (p : Int) : Nat :=
  (p % 18446744073709551616).toNat

/-- A decoded frame as seen by `process_frame`: its presentation timestamp
and the text the external OCR engine returns for it. -/
structure FrameIn where
  pts : Int
  text : String
  deriving DecidableEq

/-- A message sent on the streamed-mode response channel: either the JSON
`RecognisedText` produced by the `process_frame` call with sequence number
`seq` (`src/main.rs` lines 163-169), or the `end_of_process` marker sent by
`ending_process` (`src/main.rs` lines 172-181). -/
inductive Msg where
  | frameResult (seq : Nat) (pts : Nat) (text : String)
  | endMarker
  deriving DecidableEq

/-- The per-frame messages produced by running `process_frame` over a list
of decoded frames from counter value `c`: kept frames yield their
`RecognisedText`, skipped frames yield nothing, and a division-by-zero
panic in the sampler aborts the run (`none`). -/
def frameMsgs (sampleRate : Option Nat) : List FrameIn → Nat → Option (List Msg)
  | [], _ => some []
  | f :: fs, c =>
    match sampleKeep sampleRate c with
    | none => none
    | some true =>
        (frameMsgs sampleRate fs (c + 1)).map
          (Msg.frameResult c (ptsToU64 f.pts) f.text :: ·)
    | some false => frameMsgs sampleRate fs (c + 1)

/-- The full streamed-mode trace on the response channel: the per-frame
results followed by the single `end_of_process` marker sent by
`ending_process` once the input is exhausted. -/
def streamedTrace (sampleRate : Option Nat) (frames : List FrameIn) :
    Option (List Msg) :=
  (frameMsgs sampleRate frames 0).map (· ++ [Msg.endMarker])

/-- Sequence numbers of the frame-result messages in a trace. -/
def frameSeqs (ms : List Msg) : List Nat :=
  ms.filterMap fun m =>
    match m with
    | Msg.frameResult c _ _ => some c
    | Msg.endMarker => none

/-- A streamed-mode job run: `init_process` selects the stream and builds
the filter chain; if it fails, no frame is processed and no message is
emitted; otherwise the trace of the run follows. -/
def runWorker (streams : List MediaType) (roi : Option RegionOfInterest)
    (width height : Option Nat) (sampleRate : Option Nat)
    (frames : List FrameIn) : Except String (Option (List Msg)) :=
  match initProcess streams roi width height with
  | .error e => .error e
  | .ok _ => .ok (streamedTrace sampleRate frames)

lemma frameMsgs_spec (sampleRate : Option Nat) :
    ∀ (fs : List FrameIn) (c : Nat) (ms : List Msg),
      frameMsgs sampleRate fs c = some ms →
      (∀ m ∈ ms, ∃ c' p t, m = Msg.frameResult c' p t) ∧
      (∀ x ∈ frameSeqs ms, c ≤ x) ∧ (frameSeqs ms).Nodup := by
  intro fs
  induction fs with
  | nil =>
    intro c ms hms
    simp only [frameMsgs, Option.some.injEq] at hms
    subst hms
    simp [frameSeqs]
  | cons f fs ih =>
    intro c ms hms
    simp only [frameMsgs] at hms
    cases hk : sampleKeep sampleRate c with
    | none => rw [hk] at hms; cases hms
    | some keep =>
      rw [hk] at hms
      cases keep with
      | true =>
        cases hrec : frameMsgs sampleRate fs (c + 1) with
        | none => rw [hrec] at hms; cases hms
        | some ms' =>
          rw [hrec] at hms
          simp only [Option.map_some', Option.some.injEq] at hms
          subst hms
          obtain ⟨hshape, hge, hnd⟩ := ih (c + 1) ms' hrec
          refine ⟨?_, ?_, ?_⟩
          · intro m hm
            rcases List.mem_cons.mp hm with h | h
            · exact ⟨c, ptsToU64 f.pts, f.text, h⟩
            · exact hshape m h
          · intro x hx
            simp only [frameSeqs, List.filterMap_cons] at hx
            rcases List.mem_cons.mp hx with h | h
            · omega
            · have := hge x h
              omega
          · simp only [frameSeqs, List.filterMap_cons]
            refine List.nodup_cons.mpr ⟨?_, hnd⟩
            intro hc
            have := hge c hc
            omega
      | false =>
        obtain ⟨hshape, hge, hnd⟩ := ih (c + 1) ms hms
        refine ⟨hshape, ?_, hnd⟩
        intro x hx
        have := hge x hx
        omega

/-- C8. In streamed mode, whenever the run completes, the trace contains the
end-of-stream marker exactly once, as its last message, after every frame
result and preceding none of them, and no frame result is emitted twice (the
sequence numbers of the emitted frame results are pairwise distinct). -/
theorem streamed_trace_end_marker (sampleRate : Option Nat)
    (frames : List FrameIn) (tr : List Msg)
    (htr : streamedTrace sampleRate frames = some tr) :
    tr.count Msg.endMarker = 1 ∧
    tr.getLast? = some Msg.endMarker ∧
    (∀ m ∈ tr.dropLast, ∃ c p t, m = Msg.frameResult c p t) ∧
    (frameSeqs tr).Nodup := by
  simp only [streamedTrace] at htr
  cases hms : frameMsgs sampleRate frames 0 with
  | none => rw [hms] at htr; cases htr
  | some ms =>
    rw [hms] at htr
    simp only [Option.map_some', Option.some.injEq] at htr
    subst htr
    obtain ⟨hshape, _, hnd⟩ := frameMsgs_spec sampleRate frames 0 ms hms
    have hnotmem : Msg.endMarker ∉ ms := by
      intro hmem
      obtain ⟨c, p, t, h⟩ := hshape _ hmem
      cases h
    refine ⟨?_, ?_, ?_, ?_⟩
    · rw [List.count_append, List.count_eq_zero.mpr hnotmem]
      simp
    · exact List.getLast?_concat ms
    · intro m hm
      rw [List.dropLast_concat] at hm
      exact hshape m hm
    · simp only [frameSeqs, List.filterMap_append]
      simpa [frameSeqs] using hnd

/-- C8 witness: the end-marker theorem applied to a two-frame run at
sample rate `2`: the trace is the first frame's result followed by the
single end marker. -/
theorem streamed_trace_end_marker_witness :
    (streamedTrace (some 2) [⟨0, "a"⟩, ⟨1, "b"⟩]).getD [] =
        [Msg.frameResult 0 0 "a", Msg.endMarker] ∧
      ([Msg.frameResult 0 0 "a", Msg.endMarker].count Msg.endMarker = 1 ∧
       [Msg.frameResult 0 0 "a", Msg.endMarker].getLast? = some Msg.endMarker ∧
       (∀ m ∈ [Msg.frameResult 0 0 "a", Msg.endMarker].dropLast,
         ∃ c p t, m = Msg.frameResult c p t) ∧
       (frameSeqs [Msg.frameResult 0 0 "a", Msg.endMarker]).Nodup) :=
  ⟨rfl, streamed_trace_end_marker (some 2) [⟨0, "a"⟩, ⟨1, "b"⟩]
    [Msg.frameResult 0 0 "a", Msg.endMarker] rfl⟩

/-- C9. When the source has no video stream, `init_process` fails with the
human-readable message "Missing video stream in the source", and the job
run fails before any frame is processed: no message is ever emitted. -/
theorem missing_video_stream_fails (streams : List MediaType)
    (roi : Option RegionOfInterest) (w h sampleRate : Option Nat)
    (frames : List FrameIn)
    (hnv : ∀ s ∈ streams, s ≠ MediaType.video) :
    initProcess streams roi w h = .error "Missing video stream in the source" ∧
    runWorker streams roi w h sampleRate frames =
      .error "Missing video stream in the source" := by
  have hfind : ∀ (ss : List MediaType) (i : Nat),
      (∀ s ∈ ss, s ≠ MediaType.video) → firstVideoIndex ss i = none := by
    intro ss
    induction ss with
    | nil => intro i _; rfl
    | cons s rest ih =>
      intro i hs
      have hne : s ≠ MediaType.video := hs s (List.mem_cons_self s rest)
      simp only [firstVideoIndex, if_neg hne]
      exact ih (i + 1) fun x hx => hs x (List.mem_cons_of_mem s hx)
  have hinit : initProcess streams roi w h =
      .error "Missing video stream in the source" := by
    simp [initProcess, hfind streams 0 hnv]
  exact ⟨hinit, by simp [runWorker, hinit]⟩

/-- C9 witness: the missing-video-stream theorem applied to a source whose
only streams are one audio and one subtitle stream. -/
theorem missing_video_stream_fails_witness :
    initProcess [MediaType.audio, MediaType.subtitle] none none none =
        .error "Missing video stream in the source" ∧
      runWorker [MediaType.audio, MediaType.subtitle] none none none none [] =
        .error "Missing video stream in the source" :=
  missing_video_stream_fails [MediaType.audio, MediaType.subtitle]
    none none none none [] (by decide)

/-- C10. The emitted timestamp is the frame's signed 64-bit pts
reinterpreted modulo `2^64`: a negative pts `p` (with `-2^63 ≤ p < 0`)
yields the large value `p + 2^64 ≥ 2^63` instead of an error — in
particular `-1` yields `2^64 - 1` and the unset-pts sentinel `-2^63`
yields `2^63` — while a nonnegative pts is carried through unchanged, and
the frame-result message for a kept frame carries exactly this value. -/
theorem pts_reinterpreted_unsigned :
    (∀ p : Int, -9223372036854775808 ≤ p → p < 0 →
      (ptsToU64 p : Int) = p + 18446744073709551616 ∧
        9223372036854775808 ≤ ptsToU64 p) ∧
    ptsToU64 (-1) = 18446744073709551615 ∧
    ptsToU64 (-9223372036854775808) = 9223372036854775808 ∧
    (∀ p : Int, 0 ≤ p → p < 18446744073709551616 → (ptsToU64 p : Int) = p) ∧
    (∀ f : FrameIn, frameMsgs none [f] 0 =
      some [Msg.frameResult 0 (ptsToU64 f.pts) f.text]) := by
  refine ⟨?_, by rfl, by rfl, ?_, fun f => rfl⟩
  · intro p h1 h2
    have hmod : p % 18446744073709551616 = p + 18446744073709551616 := by
      omega
    constructor
    · rw [ptsToU64, hmod, Int.toNat_of_nonneg (by omega)]
    · have : (9223372036854775808 : Int) ≤ p + 18446744073709551616 := by omega
      rw [ptsToU64, hmod]
      omega
  · intro p h1 h2
    have hmod : p % 18446744073709551616 = p := Int.emod_eq_of_lt h1 h2
    rw [ptsToU64, hmod, Int.toNat_of_nonneg h1]

/-- C10 witness: the pts-reinterpretation theorem applied at `pts = -42`. -/
theorem pts_reinterpreted_unsigned_witness :
    (ptsToU64 (-42) : Int) = -42 + 18446744073709551616 ∧
      9223372036854775808 ≤ ptsToU64 (-42) :=
  pts_reinterpreted_unsigned.1 (-42) (by decide) (by decide)

/-- A decoded video frame as seen by the batch loop of `apply_ocr`
(`src/message.rs`): its pixel dimensions and the text the external OCR
engine returns for it. -/
structure VideoFrame where
  width : Nat
  height : Nat
  text : String
  deriving DecidableEq

/-- `struct FrameAnalysis` from `src/message.rs` lines 26-36: one report
entry per processed frame. -/
structure FrameAnalysis where
  coordinates : Nat × Nat × Nat × Nat
  confidence : String
  frame : Nat
  text : String
  deriving DecidableEq

/-- The frame loop of `apply_ocr` (`src/message.rs` lines 149-238):
`frame_count` starts at `0` and increments once per frame whether it is
skipped or kept; a kept frame (`frame_count % sample_rate == 0`) appends a
`FrameAnalysis` whose coordinates are the requested ones, or
`(0, frame_height, 0, frame_width)` when no region was requested; a zero
`sample_rate` panics (`none`) at the remainder. -/
def applyOcrLoop (sampleRate : Nat) (coordinates : Option (Nat × Nat × Nat × Nat)) :
    List VideoFrame → Nat → Option (List FrameAnalysis)
  | [], _ => some []
  | f :: fs, frame_count =>
    match rustRem frame_count sampleRate with
    | none => none
    | some m =>
      if m ≠ 0 then
        applyOcrLoop sampleRate coordinates fs (frame_count + 1)
      else
        (applyOcrLoop sampleRate coordinates fs (frame_count + 1)).map
          (fun rest =>
            { coordinates := coordinates.getD (0, f.height, 0, f.width),
              confidence := "NA", frame := frame_count, text := f.text } :: rest)

/-- The report entry the batch loop produces for a kept frame when no
region of interest was requested: the full-frame rectangle
`(0, frame_height, 0, frame_width)` (top `0`, bottom `frame_height`,
left `0`, right `frame_width`), placeholder confidence, the frame's
sequence number, and its recognized text. -/
def fullFrameAnalysis (frame_count : Nat) (f : VideoFrame) : FrameAnalysis :=
  { coordinates := (0, f.height, 0, f.width),
    confidence := "NA", frame := frame_count, text := f.text }

/-- C7. A batch run over ten decoded frames with `sample_rate = 2` and no
region of interest yields exactly five report entries — for frames
`0, 2, 4, 6, 8`, in ascending frame-identifier order — each carrying the
full-frame rectangle (top `0`, left `0`, extending to the frame's width and
height) as its coordinates. -/
theorem batch_report_ten_frames_rate_two
    (f0 f1 f2 f3 f4 f5 f6 f7 f8 f9 : VideoFrame) :
    applyOcrLoop 2 none [f0, f1, f2, f3, f4, f5, f6, f7, f8, f9] 0 =
      some [fullFrameAnalysis 0 f0, fullFrameAnalysis 2 f2,
            fullFrameAnalysis 4 f4, fullFrameAnalysis 6 f6,
            fullFrameAnalysis 8 f8] ∧
    [fullFrameAnalysis 0 f0, fullFrameAnalysis 2 f2, fullFrameAnalysis 4 f4,
     fullFrameAnalysis 6 f6, fullFrameAnalysis 8 f8].length = 5 ∧
    [fullFrameAnalysis 0 f0, fullFrameAnalysis 2 f2, fullFrameAnalysis 4 f4,
     fullFrameAnalysis 6 f6, fullFrameAnalysis 8 f8].map FrameAnalysis.frame =
      [0, 2, 4, 6, 8] ∧
    List.Chain' (· < ·)
      ([fullFrameAnalysis 0 f0, fullFrameAnalysis 2 f2, fullFrameAnalysis 4 f4,
        fullFrameAnalysis 6 f6, fullFrameAnalysis 8 f8].map FrameAnalysis.frame) ∧
    (∀ e ∈ [fullFrameAnalysis 0 f0, fullFrameAnalysis 2 f2,
            fullFrameAnalysis 4 f4, fullFrameAnalysis 6 f6,
            fullFrameAnalysis 8 f8],
      e.coordinates.1 = 0 ∧ e.coordinates.2.2.1 = 0) := by
  refine ⟨?_, rfl, by simp [fullFrameAnalysis], ?_, ?_⟩
  · simp [applyOcrLoop, rustRem, fullFrameAnalysis]
  · simp [fullFrameAnalysis, List.chain'_cons]
  · intro e he
    simp only [List.mem_cons, List.not_mem_nil, or_false] at he
    rcases he with h | h | h | h | h <;> subst h <;> exact ⟨rfl, rfl⟩

/-- C7 witness: the batch-report theorem applied to ten concrete
`192 × 100` frames. -/
theorem batch_report_ten_frames_rate_two_witness :
    applyOcrLoop 2 none
        [⟨192, 100, "a"⟩, ⟨192, 100, "b"⟩, ⟨192, 100, "c"⟩, ⟨192, 100, "d"⟩,
         ⟨192, 100, "e"⟩, ⟨192, 100, "f"⟩, ⟨192, 100, "g"⟩, ⟨192, 100, "h"⟩,
         ⟨192, 100, "i"⟩, ⟨192, 100, "j"⟩] 0 =
      some [fullFrameAnalysis 0 ⟨192, 100, "a"⟩,
            fullFrameAnalysis 2 ⟨192, 100, "c"⟩,
            fullFrameAnalysis 4 ⟨192, 100, "e"⟩,
            fullFrameAnalysis 6 ⟨192, 100, "g"⟩,
            fullFrameAnalysis 8 ⟨192, 100, "i"⟩] :=
  (batch_report_ten_frames_rate_two ⟨192, 100, "a"⟩ ⟨192, 100, "b"⟩
    ⟨192, 100, "c"⟩ ⟨192, 100, "d"⟩ ⟨192, 100, "e"⟩ ⟨192, 100, "f"⟩
    ⟨192, 100, "g"⟩ ⟨192, 100, "h"⟩ ⟨192, 100, "i"⟩ ⟨192, 100, "j"⟩).1

end TextRecognition
